import Mathlib

/-!
Verification of the `BatchCreator` accumulator from `batch_creator.py`.

The Python class accumulates OpenAI batch-request entries (plain dicts) in a
list and serializes them to a `.jsonl` file, one `json.dumps` document per
line.  We embed the dict values as a JSON value type (`JValue`), the class
instance as a structure (`BatchCreator`), and each method as a pure function;
the file write is modelled by returning the path and the written content.
-/

/- JSON values as built by the Python code: strings, integers, arrays and
objects whose fields keep insertion order (Python dicts preserve it).
`JFields` and `JArray` are inlined lists so that all recursion over `JValue`
is structural. -/
mutual
inductive JValue where
| str (s : String)
| num (n : Int)
| arr (items : JArray)
| obj (fields : JFields)

inductive JArray where
| nil
| cons (v : JValue) (tl : JArray)

inductive JFields where
| nil
| cons (k : String) (v : JValue) (tl : JFields)
end

/-- Build a `JFields` from an association list, keeping order. -/
def JFields.ofList : List (String × JValue) → JFields
| [] => .nil
| (k, v) :: tl => .cons k v (JFields.ofList tl)

/-- Build a `JArray` from a list, keeping order. -/
def JArray.ofList : List JValue → JArray
| [] => .nil
| v :: tl => .cons v (JArray.ofList tl)

/-- First value stored under a key, like reading a Python dict. -/
def JFields.lookup : JFields → String → Option JValue
| .nil, _ => none
| .cons k v tl, key => if k = key then some v else JFields.lookup tl key

/-- Python dict assignment `d[key] = v`: overwrite in place when the key is
present, otherwise append at the end (insertion order). -/
def JFields.setItem : JFields → String → JValue → JFields
| .nil, key, v => .cons key v .nil
| .cons k v0 tl, key, v =>
  if k = key then .cons k v tl else .cons k v0 (JFields.setItem tl key v)

/-- Reading a key of a JSON object; `none` on other values or a missing key. -/
def JValue.lookup : JValue → String → Option JValue
| .obj fields, key => fields.lookup key
| _, _ => none

/-- Lowercase hexadecimal digit, as produced by Python string escapes. -/
def hexDigit (n : Nat) : Char :=
  if n < 10 then Char.ofNat (48 + n) else Char.ofNat (87 + n)

/-- Four lowercase hex digits, the `XXXX` of a `\uXXXX` escape. -/
def hex4 (n : Nat) : String :=
  String.mk [hexDigit (n / 4096 % 16), hexDigit (n / 256 % 16),
             hexDigit (n / 16 % 16), hexDigit (n % 16)]

/-- Escaping of one character inside a JSON string, following
`json.dumps(..., ensure_ascii=False)`: quote, backslash and the named control
characters get two-character escapes, other control characters a `\uXXXX`
escape, everything else (non-ASCII included) is emitted literally. -/
def escapeChar (c : Char) : String :=
  if c = '"' then "\\\""
  else if c = '\\' then "\\\\"
  else if c = '\n' then "\\n"
  else if c = '\t' then "\\t"
  else if c = '\r' then "\\r"
  else if c = Char.ofNat 8 then "\\b"
  else if c = Char.ofNat 12 then "\\f"
  else if c.toNat < 32 then "\\u" ++ hex4 c.toNat
  else String.singleton c

/-- A JSON string literal: escaped characters between double quotes. -/
def dumpsString (s : String) : String :=
  "\"" ++ String.join (s.data.map escapeChar) ++ "\""

/- `json.dumps` with its default separators `", "` and `": "` (the defaults
when `indent` is `None`) and `ensure_ascii=False`. -/
mutual
def dumps : JValue → String
| .str s => dumpsString s
| .num n => toString n
| .arr items => "[" ++ dumpsArr items ++ "]"
| .obj fields => "\x7b" ++ dumpsObj fields ++ "\x7d"

def dumpsArr : JArray → String
| .nil => ""
| .cons v .nil => dumps v
| .cons v tl => dumps v ++ ", " ++ dumpsArr tl

def dumpsObj : JFields → String
| .nil => ""
| .cons k v .nil => dumpsString k ++ ": " ++ dumps v
| .cons k v tl => dumpsString k ++ ": " ++ dumps v ++ ", " ++ dumpsObj tl
end

/-- State of a `BatchCreator` instance: the four configuration fields set by
`__init__` and the growing `entries` list. -/
structure BatchCreator where
  model : String
  reasoning_effort : String
  json_schema : Option JValue
  system_prompt : String
  entries : List JValue

/-- `BatchCreator(model, reasoning_effort, json_schema, system_prompt)`:
stores the four configuration values verbatim and starts with no entries. -/
def BatchCreator.construct (model reasoning_effort : String)
    (json_schema : Option JValue) (system_prompt : String) : BatchCreator :=
  { model := model, reasoning_effort := reasoning_effort,
    json_schema := json_schema, system_prompt := system_prompt, entries := [] }

/-- The entry dict built inside `add_entry`: the body is created with the four
base keys, then `body["response_format"] = ...` runs only when a schema is
configured, and the envelope wraps the body. -/
def mk_entry (model reasoning_effort : String) (json_schema : Option JValue)
    (system_prompt index user_prompt : String) : JValue :=
  let body : JFields := JFields.ofList
    [("model", .str model),
     ("seed", .num 334),
     ("reasoning_effort", .str reasoning_effort),
     ("messages", .arr (JArray.ofList
       [.obj (JFields.ofList [("role", .str "system"), ("content", .str system_prompt)]),
        .obj (JFields.ofList [("role", .str "user"), ("content", .str user_prompt)])]))]
  let body : JFields :=
    match json_schema with
    | some schema =>
      body.setItem "response_format"
        (.obj (JFields.ofList [("type", .str "json_schema"), ("json_schema", schema)]))
    | none => body
  .obj (JFields.ofList
    [("custom_id", .str index),
     ("method", .str "POST"),
     ("url", .str "/v1/chat/completions"),
     ("body", .obj body)])

/-- `add_entry(index, user_prompt)`: appends the rendered entry to `entries`. -/
def BatchCreator.add_entry (b : BatchCreator) (index user_prompt : String) :
    BatchCreator :=
  { b with entries := b.entries ++
      [mk_entry b.model b.reasoning_effort b.json_schema b.system_prompt index user_prompt] }

/-- `save_to_file(id)`: the file path is
`Path(__file__).parent.parent / f"data/batches/batch_{id}.jsonl"`; the content
is one `json.dumps(entry) + "\n"` chunk per entry, written in order.  `dir` is
the string form of `Path(__file__).parent.parent`.  The result carries the
path, the written content and the state after the call. -/
def BatchCreator.save_to_file (b : BatchCreator) (dir id : String) :
    (String × String) × BatchCreator :=
  let file_path := dir ++ "/" ++ ("data/batches/batch_" ++ id ++ ".jsonl")
  let content := b.entries.foldl (fun acc entry => acc ++ (dumps entry ++ "\n")) ""
  ((file_path, content), b)

/-- `clear_entries()`: `self.entries.clear()`. -/
def BatchCreator.clear_entries (b : BatchCreator) : BatchCreator :=
  { b with entries := [] }

/-- `get_entry_count()`: `len(self.entries)`. -/
def BatchCreator.get_entry_count (b : BatchCreator) : Nat :=
  b.entries.length

/-- The two ways `preview_entry` can raise: the formatted `IndexError` built
by the explicit bounds check (carrying the requested index and the current
count), and the plain `IndexError` Python raises for a bad list subscript. -/
inductive PyErr where
| indexOutOfRange (index : Int) (count : Nat)
| listIndexError

/-- Effective position of an `int` subscript into a Python list of length
`len`: a negative index counts from the end. -/
def pyIndex (index : Int) (len : Nat) : Int :=
  if index < 0 then index + len else index

/-- Python list subscripting `xs[i]` with an `int` index: a negative index
counts from the end; an index out of `[-len, len)` raises `IndexError`. -/
def pyListGet (xs : List JValue) (index : Int) : Except PyErr JValue :=
  if h : 0 ≤ pyIndex index xs.length ∧ pyIndex index xs.length < xs.length then
    .ok (xs.get ⟨(pyIndex index xs.length).toNat, by omega⟩)
  else .error .listIndexError

/-- `preview_entry(index)`: raises the formatted `IndexError` when
`index >= len(self.entries)`, otherwise returns `self.entries[index]`. -/
def BatchCreator.preview_entry (b : BatchCreator) (index : Int) :
    Except PyErr JValue :=
  if (b.entries.length : Int) ≤ index then
    .error (.indexOutOfRange index b.entries.length)
  else
    pyListGet b.entries index

/-- One call on the accumulator, for reasoning about call sequences. -/
inductive Op where
| addEntry (index user_prompt : String)
| saveToFile (dir id : String)
| clearEntries
| getEntryCount
| previewEntry (index : Int)

/-- State transition of one call: `add_entry` and `clear_entries` mutate the
entry list, the other three methods leave the state unchanged. -/
def BatchCreator.runOp (b : BatchCreator) : Op → BatchCreator
| .addEntry i u => b.add_entry i u
| .saveToFile d i => (b.save_to_file d i).2
| .clearEntries => b.clear_entries
| .getEntryCount => b
| .previewEntry _ => b

/-- Run a sequence of calls left to right. -/
def BatchCreator.run (b : BatchCreator) (ops : List Op) : BatchCreator :=
  ops.foldl BatchCreator.runOp b

/-- Whether a call is `clear_entries`. -/
def Op.isClear : Op → Bool
| .clearEntries => true
| _ => false

/-- Whether a call is `add_entry`. -/
def Op.isAdd : Op → Bool
| .addEntry _ _ => true
| _ => false

/-- The calls made after the most recent `clear_entries`, or all calls when
none was made. -/
def opsSinceLastClear (ops : List Op) : List Op :=
  (ops.reverse.takeWhile (fun op => !op.isClear)).reverse

set_option maxRecDepth 40000

/-- Number of calls made after the most recent `clear_entries` that are
`add_entry` calls. -/
def addsSinceLastClear (ops : List Op) : Nat :=
  ((opsSinceLastClear ops).filter Op.isAdd).length

/-- Step function of the entry count along one call. -/
def countStep (n : Nat) : Op → Nat
| .addEntry _ _ => n + 1
| .clearEntries => 0
| _ => n

/-- Concrete accumulator used to instantiate theorems: no schema, two
entries. -/
def sample2 : BatchCreator :=
  BatchCreator.add_entry
    (BatchCreator.add_entry (BatchCreator.construct "m" "low" none "s") "a" "ua")
    "b" "ub"

/-- Concrete accumulator with a schema and one entry. -/
def sampleSchema : BatchCreator :=
  BatchCreator.add_entry
    (BatchCreator.construct "m" "low" (some (.obj .nil)) "s") "id1" "hello"

/-- The entry envelope exactly as displayed in the output-file-format section
of the documentation: identical content to `mk_entry`, but with the optional
`response_format` field placed between `reasoning_effort` and `messages`.
This definition follows the words of the documentation and exists only to be
compared with `mk_entry`, which follows the code. -/
def spec_envelope (model reasoning_effort : String) (json_schema : Option JValue)
    (system_prompt index user_prompt : String) : JValue :=
  let base : List (String × JValue) :=
    [("model", .str model),
     ("seed", .num 334),
     ("reasoning_effort", .str reasoning_effort)]
  let rf : List (String × JValue) :=
    match json_schema with
    | some schema =>
      [("response_format", .obj (JFields.ofList
          [("type", .str "json_schema"), ("json_schema", schema)]))]
    | none => []
  let msgs : List (String × JValue) :=
    [("messages", .arr (JArray.ofList
       [.obj (JFields.ofList [("role", .str "system"), ("content", .str system_prompt)]),
        .obj (JFields.ofList [("role", .str "user"), ("content", .str user_prompt)])]))]
  .obj (JFields.ofList
    [("custom_id", .str index),
     ("method", .str "POST"),
     ("url", .str "/v1/chat/completions"),
     ("body", .obj (JFields.ofList (base ++ rf ++ msgs)))])

theorem foldl_str_append (l : List String) (a : String) :
    l.foldl (· ++ ·) a = a ++ l.foldl (· ++ ·) "" := by
  induction l generalizing a with
  | nil => simp
  | cons x tl ih =>
    simp only [List.foldl_cons]
    rw [ih (a ++ x), ih ("" ++ x), String.empty_append, String.append_assoc]

theorem join_cons_str (s : String) (l : List String) :
    String.join (s :: l) = s ++ String.join l := by
  simp only [String.join, List.foldl_cons, String.empty_append]
  exact foldl_str_append l s

theorem foldl_dumps_join (l : List JValue) (acc : String) :
    l.foldl (fun a e => a ++ (dumps e ++ "\n")) acc
      = acc ++ String.join (l.map (fun e => dumps e ++ "\n")) := by
  induction l generalizing acc with
  | nil => simp [String.join]
  | cons v tl ih =>
    simp only [List.foldl_cons, List.map_cons, join_cons_str]
    rw [ih, String.append_assoc]

theorem runOp_config (b : BatchCreator) (op : Op) :
    (b.runOp op).model = b.model ∧
    (b.runOp op).reasoning_effort = b.reasoning_effort ∧
    (b.runOp op).json_schema = b.json_schema ∧
    (b.runOp op).system_prompt = b.system_prompt := by
  cases op <;> exact ⟨rfl, rfl, rfl, rfl⟩

theorem run_config (b : BatchCreator) (ops : List Op) :
    (b.run ops).model = b.model ∧
    (b.run ops).reasoning_effort = b.reasoning_effort ∧
    (b.run ops).json_schema = b.json_schema ∧
    (b.run ops).system_prompt = b.system_prompt := by
  induction ops generalizing b with
  | nil => exact ⟨rfl, rfl, rfl, rfl⟩
  | cons op ops ih =>
    have h1 := runOp_config b op
    have h2 := ih (b.runOp op)
    exact ⟨h1.1 ▸ h2.1, h1.2.1 ▸ h2.2.1, h1.2.2.1 ▸ h2.2.2.1, h1.2.2.2 ▸ h2.2.2.2⟩

theorem mem_run_entries (ops : List Op) (b : BatchCreator) (v : JValue)
    (hv : v ∈ (b.run ops).entries) :
    v ∈ b.entries ∨ ∃ i u, v = mk_entry b.model b.reasoning_effort
      b.json_schema b.system_prompt i u := by
  induction ops generalizing b with
  | nil => exact Or.inl hv
  | cons op ops ih =>
    have hcfg := runOp_config b op
    rcases ih (b.runOp op) hv with hmem | ⟨i, u, hval⟩
    · cases op with
      | addEntry i u =>
        rcases List.mem_append.mp hmem with h | h
        · exact Or.inl h
        · exact Or.inr ⟨i, u, (List.mem_singleton.mp h)⟩
      | saveToFile d i => exact Or.inl hmem
      | clearEntries => exact absurd hmem (List.not_mem_nil v)
      | getEntryCount => exact Or.inl hmem
      | previewEntry i => exact Or.inl hmem
    · exact Or.inr ⟨i, u,
        by rw [hval, hcfg.1, hcfg.2.1, hcfg.2.2.1, hcfg.2.2.2]⟩

/-- Claim C1: every `add_entry(identifier, userPrompt)` call appends exactly
one entry, whose `custom_id` is the identifier, whose method is `POST`, whose
url is `/v1/chat/completions`, and whose body carries the configured model,
the constant seed 334, the configured reasoning effort, and exactly the two
messages system-then-user. -/
theorem add_entry_appends_envelope (b : BatchCreator) (index user_prompt : String) :
    (b.add_entry index user_prompt).entries
      = b.entries ++ [mk_entry b.model b.reasoning_effort b.json_schema
          b.system_prompt index user_prompt]
    ∧ (mk_entry b.model b.reasoning_effort b.json_schema b.system_prompt
        index user_prompt).lookup "custom_id" = some (.str index)
    ∧ (mk_entry b.model b.reasoning_effort b.json_schema b.system_prompt
        index user_prompt).lookup "method" = some (.str "POST")
    ∧ (mk_entry b.model b.reasoning_effort b.json_schema b.system_prompt
        index user_prompt).lookup "url" = some (.str "/v1/chat/completions")
    ∧ ∃ bf : JFields,
        (mk_entry b.model b.reasoning_effort b.json_schema b.system_prompt
          index user_prompt).lookup "body" = some (.obj bf)
        ∧ bf.lookup "model" = some (.str b.model)
        ∧ bf.lookup "seed" = some (.num 334)
        ∧ bf.lookup "reasoning_effort" = some (.str b.reasoning_effort)
        ∧ bf.lookup "messages" = some (.arr (JArray.ofList
            [.obj (JFields.ofList [("role", .str "system"), ("content", .str b.system_prompt)]),
             .obj (JFields.ofList [("role", .str "user"), ("content", .str user_prompt)])])) := by
  refine ⟨rfl, ?_⟩
  cases hs : b.json_schema with
  | none => exact ⟨rfl, rfl, rfl, ⟨_, rfl, rfl, rfl, rfl, rfl⟩⟩
  | some s => exact ⟨rfl, rfl, rfl, ⟨_, rfl, rfl, rfl, rfl, rfl⟩⟩

theorem run_length (b : BatchCreator) (ops : List Op) :
    (b.run ops).entries.length = ops.foldl countStep b.entries.length := by
  induction ops generalizing b with
  | nil => rfl
  | cons op ops ih =>
    have hstep : (b.runOp op).entries.length = countStep b.entries.length op := by
      cases op <;>
        simp [BatchCreator.runOp, BatchCreator.add_entry, BatchCreator.clear_entries,
          BatchCreator.save_to_file, countStep]
    calc (b.run (op :: ops)).entries.length
        = ((b.runOp op).run ops).entries.length := rfl
      _ = ops.foldl countStep (b.runOp op).entries.length := ih _
      _ = ops.foldl countStep (countStep b.entries.length op) := by rw [hstep]
      _ = (op :: ops).foldl countStep b.entries.length := rfl

theorem opsSinceLastClear_append (ops : List Op) (op : Op) :
    opsSinceLastClear (ops ++ [op]) =
      if op.isClear then [] else opsSinceLastClear ops ++ [op] := by
  cases h : op.isClear with
  | true =>
    simp [opsSinceLastClear, List.reverse_append, List.takeWhile_cons, h]
  | false =>
    simp [opsSinceLastClear, List.reverse_append, List.takeWhile_cons, h]

theorem addsSinceLastClear_append (ops : List Op) (op : Op) :
    addsSinceLastClear (ops ++ [op]) =
      if op.isClear then 0 else
        if op.isAdd then addsSinceLastClear ops + 1
        else addsSinceLastClear ops := by
  rw [addsSinceLastClear, opsSinceLastClear_append]
  cases h : op.isClear with
  | true => simp [addsSinceLastClear, h]
  | false =>
    cases h2 : op.isAdd with
    | true =>
      simp [addsSinceLastClear, h, h2, List.filter_append, List.filter_cons]
    | false =>
      simp [addsSinceLastClear, h, h2, List.filter_append, List.filter_cons]

theorem foldl_countStep_eq (ops : List Op) :
    ops.foldl countStep 0 = addsSinceLastClear ops := by
  induction ops using List.reverseRecOn with
  | nil => rfl
  | append_singleton ops op ih =>
    rw [List.foldl_append, List.foldl_cons, List.foldl_nil,
      addsSinceLastClear_append, ← ih]
    cases op <;> simp [countStep, Op.isClear, Op.isAdd]

/-- Claim C5: after any sequence of calls on a freshly constructed
accumulator, `get_entry_count` equals the number of `add_entry` calls made
since construction or since the most recent `clear_entries`, whichever is
later. -/
theorem entry_count_traces (model reasoning_effort : String)
    (json_schema : Option JValue) (system_prompt : String) (ops : List Op) :
    ((BatchCreator.construct model reasoning_effort json_schema
        system_prompt).run ops).get_entry_count = addsSinceLastClear ops := by
  rw [BatchCreator.get_entry_count, run_length, ← foldl_countStep_eq]
  rfl

/-- Claim C3: an accumulator constructed without a schema only ever produces
entries whose body has no `response_format` key; one constructed with schema
`s` only ever produces entries whose body maps `response_format` to
`{type: "json_schema", json_schema: s}` with `s` exactly as given. -/
theorem response_format_matches_schema (model reasoning_effort system_prompt : String)
    (ops : List Op) :
    (∀ v ∈ ((BatchCreator.construct model reasoning_effort none
        system_prompt).run ops).entries,
      ∃ bf : JFields, v.lookup "body" = some (.obj bf)
        ∧ bf.lookup "response_format" = none)
    ∧ ∀ (s : JValue),
        ∀ v ∈ ((BatchCreator.construct model reasoning_effort (some s)
            system_prompt).run ops).entries,
          ∃ bf : JFields, v.lookup "body" = some (.obj bf)
            ∧ bf.lookup "response_format"
              = some (.obj (JFields.ofList
                  [("type", .str "json_schema"), ("json_schema", s)])) := by
  constructor
  · intro v hv
    rcases mem_run_entries ops _ v hv with hmem | ⟨i, u, rfl⟩
    · exact absurd hmem (List.not_mem_nil v)
    · exact ⟨_, rfl, rfl⟩
  · intro s v hv
    rcases mem_run_entries ops _ v hv with hmem | ⟨i, u, rfl⟩
    · exact absurd hmem (List.not_mem_nil v)
    · exact ⟨_, rfl, rfl⟩

/-- Instantiation of `response_format_matches_schema` on a one-call trace. -/
theorem response_format_matches_schema_witness :
    (∃ bf : JFields,
        (mk_entry "m" "low" none "s" "a" "ua").lookup "body" = some (.obj bf)
        ∧ bf.lookup "response_format" = none)
    ∧ (∃ bf : JFields,
        (mk_entry "m" "low" (some (.obj .nil)) "s" "a" "ua").lookup "body"
          = some (.obj bf)
        ∧ bf.lookup "response_format" = some (.obj (JFields.ofList
            [("type", .str "json_schema"), ("json_schema", .obj .nil)]))) := by
  constructor
  · exact (response_format_matches_schema "m" "low" "s" [Op.addEntry "a" "ua"]).1
      (mk_entry "m" "low" none "s" "a" "ua") (List.Mem.head _)
  · exact (response_format_matches_schema "m" "low" "s" [Op.addEntry "a" "ua"]).2
      (.obj .nil) (mk_entry "m" "low" (some (.obj .nil)) "s" "a" "ua")
      (List.Mem.head _)

theorem pyListGet_in_range (xs : List JValue) (index : Int)
    (h : 0 ≤ pyIndex index xs.length ∧ pyIndex index xs.length < xs.length) :
    ∃ hlt : (pyIndex index xs.length).toNat < xs.length,
      pyListGet xs index = .ok (xs.get ⟨(pyIndex index xs.length).toNat, hlt⟩) := by
  exact ⟨by omega, by rw [pyListGet, dif_pos h]⟩

theorem pyListGet_out_of_range (xs : List JValue) (index : Int)
    (h : ¬ (0 ≤ pyIndex index xs.length ∧ pyIndex index xs.length < xs.length)) :
    pyListGet xs index = .error .listIndexError := by
  rw [pyListGet, dif_neg h]

theorem pyListGet_ne_documented (xs : List JValue) (index i : Int) (c : Nat) :
    pyListGet xs index ≠ .error (.indexOutOfRange i c) := by
  rw [pyListGet]
  split
  · intro h
    exact Except.noConfusion h
  · intro h
    exact PyErr.noConfusion (Except.error.inj h)

/-- Claim C4: `preview_entry(index)` fails with the documented out-of-range
error, carrying the requested index and the current count, exactly when
`index` is at least `get_entry_count()`; and `preview_entry(count - 1)`
succeeds whenever the count is positive. -/
theorem preview_entry_bounds (b : BatchCreator) (index : Int) :
    (b.preview_entry index
        = .error (.indexOutOfRange index b.get_entry_count)
      ↔ (b.get_entry_count : Int) ≤ index)
    ∧ (0 < b.get_entry_count →
        ∃ e, b.preview_entry ((b.get_entry_count : Int) - 1) = .ok e) := by
  simp only [BatchCreator.get_entry_count]
  constructor
  · constructor
    · intro h
      by_contra hlt
      rw [BatchCreator.preview_entry, if_neg hlt] at h
      exact pyListGet_ne_documented b.entries index index b.entries.length h
    · intro h
      rw [BatchCreator.preview_entry, if_pos h]
  · intro hpos
    have hcond : ¬ ((b.entries.length : Int) ≤ (b.entries.length : Int) - 1) := by
      omega
    have hin : 0 ≤ pyIndex ((b.entries.length : Int) - 1) b.entries.length
        ∧ pyIndex ((b.entries.length : Int) - 1) b.entries.length
            < b.entries.length := by
      rw [pyIndex, if_neg (by omega : ¬ ((b.entries.length : Int) - 1 < 0))]
      omega
    rcases pyListGet_in_range b.entries ((b.entries.length : Int) - 1) hin with
      ⟨hlt, heq⟩
    exact ⟨_, by rw [BatchCreator.preview_entry, if_neg hcond]; exact heq⟩

/-- Instantiation of `preview_entry_bounds` on a two-entry accumulator. -/
theorem preview_entry_bounds_witness :
    sample2.preview_entry 2 = .error (.indexOutOfRange 2 sample2.get_entry_count)
    ∧ ∃ e, sample2.preview_entry ((sample2.get_entry_count : Int) - 1) = .ok e :=
  ⟨(preview_entry_bounds sample2 2).1.mpr (by decide),
   (preview_entry_bounds sample2 2).2 (by decide)⟩

theorem run_cons (b : BatchCreator) (op : Op) (ops : List Op) :
    b.run (op :: ops) = (b.runOp op).run ops := rfl

theorem run_adds_entries (ps : List (String × String)) (b : BatchCreator) :
    (b.run (ps.map (fun p => Op.addEntry p.1 p.2))).entries
      = b.entries ++ ps.map (fun p =>
          mk_entry b.model b.reasoning_effort b.json_schema
            b.system_prompt p.1 p.2) := by
  induction ps generalizing b with
  | nil => simp [BatchCreator.run]
  | cons p ps ih =>
    rw [List.map_cons, run_cons,
      show BatchCreator.runOp b (Op.addEntry p.1 p.2) = b.add_entry p.1 p.2
        from rfl,
      ih]
    simp [BatchCreator.add_entry, List.append_assoc]

/-- Claim C6: for `0 ≤ i < get_entry_count()`, `preview_entry(i)` returns the
entry at position `i` of the entry list, does not change the accumulator
state, and the entry list holds the added entries in insertion order. -/
theorem preview_entry_in_range (b : BatchCreator) (index : Int)
    (h0 : 0 ≤ index) (h1 : index < (b.get_entry_count : Int)) :
    (∃ hlt : index.toNat < b.entries.length,
        b.preview_entry index = .ok (b.entries.get ⟨index.toNat, hlt⟩))
    ∧ b.run [Op.previewEntry index] = b
    ∧ ∀ (model reasoning_effort : String) (json_schema : Option JValue)
        (system_prompt : String) (ps : List (String × String)),
        ((BatchCreator.construct model reasoning_effort json_schema
            system_prompt).run (ps.map (fun p => Op.addEntry p.1 p.2))).entries
          = ps.map (fun p => mk_entry model reasoning_effort json_schema
              system_prompt p.1 p.2) := by
  refine ⟨?_, rfl, ?_⟩
  · simp only [BatchCreator.get_entry_count] at h1
    have hpi : pyIndex index b.entries.length = index := by
      rw [pyIndex, if_neg (by omega)]
    have hin : 0 ≤ pyIndex index b.entries.length
        ∧ pyIndex index b.entries.length < b.entries.length := by
      rw [hpi]
      exact ⟨h0, h1⟩
    rcases pyListGet_in_range b.entries index hin with ⟨hlt, heq⟩
    refine ⟨by omega, ?_⟩
    rw [BatchCreator.preview_entry, if_neg (by omega : ¬ ((b.entries.length : Int) ≤ index)),
      heq]
    have hfin : (⟨(pyIndex index b.entries.length).toNat, hlt⟩
        : Fin b.entries.length) = ⟨index.toNat, by omega⟩ :=
      Fin.ext (show (pyIndex index b.entries.length).toNat = index.toNat by
        rw [hpi])
    rw [hfin]
  · intro model reasoning_effort json_schema system_prompt ps
    rw [run_adds_entries]
    rfl

/-- Instantiation of `preview_entry_in_range` at index 1 of a two-entry
accumulator. -/
theorem preview_entry_in_range_witness :
    (∃ hlt : (1 : Int).toNat < sample2.entries.length,
        sample2.preview_entry 1
          = .ok (sample2.entries.get ⟨(1 : Int).toNat, hlt⟩))
    ∧ sample2.run [Op.previewEntry 1] = sample2
    ∧ ∀ (model reasoning_effort : String) (json_schema : Option JValue)
        (system_prompt : String) (ps : List (String × String)),
        ((BatchCreator.construct model reasoning_effort json_schema
            system_prompt).run (ps.map (fun p => Op.addEntry p.1 p.2))).entries
          = ps.map (fun p => mk_entry model reasoning_effort json_schema
              system_prompt p.1 p.2) :=
  preview_entry_in_range sample2 1 (by decide) (by decide)

/-- Claim C10: for a nonempty accumulator the bounds check only catches
indices at or above the count, so a negative index in `[-n, 0)` is resolved
by Python list semantics to position `n + index`, and an index below `-n`
raises the plain list `IndexError`, not the documented formatted one. -/
theorem preview_entry_negative (b : BatchCreator) (index : Int)
    (hpos : 0 < b.get_entry_count) :
    (-(b.get_entry_count : Int) ≤ index → index < 0 →
      ∃ hlt : (index + (b.entries.length : Int)).toNat < b.entries.length,
        b.preview_entry index
          = .ok (b.entries.get
              ⟨(index + (b.entries.length : Int)).toNat, hlt⟩))
    ∧ (index < -(b.get_entry_count : Int) →
        b.preview_entry index = .error .listIndexError) := by
  simp only [BatchCreator.get_entry_count] at hpos ⊢
  constructor
  · intro hge hneg
    have hpi : pyIndex index b.entries.length = index + b.entries.length := by
      rw [pyIndex, if_pos hneg]
    have hin : 0 ≤ pyIndex index b.entries.length
        ∧ pyIndex index b.entries.length < b.entries.length := by
      rw [hpi]
      omega
    rcases pyListGet_in_range b.entries index hin with ⟨hlt, heq⟩
    refine ⟨by omega, ?_⟩
    rw [BatchCreator.preview_entry,
      if_neg (by omega : ¬ ((b.entries.length : Int) ≤ index)), heq]
    have hfin : (⟨(pyIndex index b.entries.length).toNat, hlt⟩
        : Fin b.entries.length)
          = ⟨(index + (b.entries.length : Int)).toNat, by omega⟩ :=
      Fin.ext (show (pyIndex index b.entries.length).toNat
          = (index + (b.entries.length : Int)).toNat by rw [hpi])
    rw [hfin]
  · intro hbelow
    have hpi : pyIndex index b.entries.length = index + b.entries.length := by
      rw [pyIndex, if_pos (by omega)]
    rw [BatchCreator.preview_entry,
      if_neg (by omega : ¬ ((b.entries.length : Int) ≤ index)),
      pyListGet_out_of_range b.entries index (by rw [hpi]; omega)]

/-- Instantiation of `preview_entry_negative` at indices -1 and -3 of a
two-entry accumulator. -/
theorem preview_entry_negative_witness :
    (∃ hlt : ((-1 : Int) + (sample2.entries.length : Int)).toNat
        < sample2.entries.length,
      sample2.preview_entry (-1)
        = .ok (sample2.entries.get
            ⟨((-1 : Int) + (sample2.entries.length : Int)).toNat, hlt⟩))
    ∧ sample2.preview_entry (-3) = .error .listIndexError :=
  ⟨(preview_entry_negative sample2 (-1) (by decide)).1 (by decide) (by decide),
   (preview_entry_negative sample2 (-3) (by decide)).2 (by decide)⟩

/-- Claim C2 counterexample: for an accumulator constructed with a schema and
holding one entry, the line written by `save_to_file` is the rendering of the
entry the code builds and is not the rendering of the documented envelope,
because the code appends `response_format` after `messages` while the
documented envelope places it between `reasoning_effort` and `messages`. -/
theorem save_line_order_counterexample :
    (sampleSchema.save_to_file "d" "abc").1.2
        = dumps (mk_entry "m" "low" (some (.obj .nil)) "s" "id1" "hello") ++ "\n"
    ∧ (sampleSchema.save_to_file "d" "abc").1.2
        ≠ dumps (spec_envelope "m" "low" (some (.obj .nil)) "s" "id1" "hello")
            ++ "\n" := by
  constructor
  · rfl
  · decide

/-- Claim C2 (amended): `save_to_file` writes one `json.dumps` document per
held entry, newline-terminated, in insertion order, so the number of lines
equals the entry count; every entry body carries the constant seed 334 in the
field order model, seed, reasoning_effort, messages, and when a schema is
configured the `response_format` field is appended after `messages`, as the
last field of the body. -/
theorem save_to_file_lines (b : BatchCreator) (dir id : String) :
    (b.save_to_file dir id).1.2
        = String.join (b.entries.map (fun e => dumps e ++ "\n"))
    ∧ (b.entries.map (fun e => dumps e ++ "\n")).length = b.get_entry_count
    ∧ (∀ model reasoning_effort system_prompt index user_prompt : String,
        mk_entry model reasoning_effort none system_prompt index user_prompt
          = .obj (JFields.ofList
              [("custom_id", .str index),
               ("method", .str "POST"),
               ("url", .str "/v1/chat/completions"),
               ("body", .obj (JFields.ofList
                 [("model", .str model),
                  ("seed", .num 334),
                  ("reasoning_effort", .str reasoning_effort),
                  ("messages", .arr (JArray.ofList
                    [.obj (JFields.ofList
                       [("role", .str "system"), ("content", .str system_prompt)]),
                     .obj (JFields.ofList
                       [("role", .str "user"), ("content", .str user_prompt)])]))]))]))
    ∧ ∀ (model reasoning_effort system_prompt index user_prompt : String)
        (s : JValue),
        mk_entry model reasoning_effort (some s) system_prompt index user_prompt
          = .obj (JFields.ofList
              [("custom_id", .str index),
               ("method", .str "POST"),
               ("url", .str "/v1/chat/completions"),
               ("body", .obj (JFields.ofList
                 [("model", .str model),
                  ("seed", .num 334),
                  ("reasoning_effort", .str reasoning_effort),
                  ("messages", .arr (JArray.ofList
                    [.obj (JFields.ofList
                       [("role", .str "system"), ("content", .str system_prompt)]),
                     .obj (JFields.ofList
                       [("role", .str "user"), ("content", .str user_prompt)])])),
                  ("response_format", .obj (JFields.ofList
                    [("type", .str "json_schema"), ("json_schema", s)]))]))]) := by
  refine ⟨?_, ?_, ?_, ?_⟩
  · exact (foldl_dumps_join b.entries "").trans (String.empty_append _)
  · simp [BatchCreator.get_entry_count]
  · intro model reasoning_effort system_prompt index user_prompt
    rfl
  · intro model reasoning_effort system_prompt index user_prompt s
    rfl

/-- Claim C7: `save_to_file` reads but does not modify the accumulator: the
state after the call, its entry list, its count and all four configuration
fields equal their values before the call. -/
theorem save_to_file_frame (b : BatchCreator) (dir id : String) :
    (b.save_to_file dir id).2 = b
    ∧ (b.save_to_file dir id).2.entries = b.entries
    ∧ (b.save_to_file dir id).2.get_entry_count = b.get_entry_count
    ∧ (b.save_to_file dir id).2.model = b.model
    ∧ (b.save_to_file dir id).2.reasoning_effort = b.reasoning_effort
    ∧ (b.save_to_file dir id).2.json_schema = b.json_schema
    ∧ (b.save_to_file dir id).2.system_prompt = b.system_prompt :=
  ⟨rfl, rfl, rfl, rfl, rfl, rfl, rfl⟩

/-- Claim C8: after `clear_entries()` the entry list is empty, the count is 0,
and a subsequent `save_to_file` writes empty content, that is zero lines. -/
theorem clear_entries_empties (b : BatchCreator) (dir id : String) :
    b.clear_entries.entries = []
    ∧ b.clear_entries.get_entry_count = 0
    ∧ (b.clear_entries.save_to_file dir id).1.2 = "" :=
  ⟨rfl, rfl, rfl⟩

/-- Claim C9: the save path is the `batches` subdirectory of the `data`
directory sibling to the parent of the code location, plus the file name
`batch_<id>.jsonl`, with the caller-supplied identifier substituted verbatim
and unsanitized. -/
theorem save_to_file_path (b : BatchCreator) (dir id : String) :
    (b.save_to_file dir id).1.1
      = (dir ++ "/" ++ "data/batches/") ++ ("batch_" ++ id ++ ".jsonl") := by
  show dir ++ "/" ++ ("data/batches/batch_" ++ id ++ ".jsonl") = _
  rw [String.append_assoc (dir ++ "/") "data/batches/",
    ← String.append_assoc "data/batches/" ("batch_" ++ id),
    ← String.append_assoc "data/batches/" "batch_",
    show ("data/batches/" ++ "batch_" : String) = "data/batches/batch_" from
      rfl]
